import Mathlib

/-!
Shallow embedding of the `bank_users` account service
(`users/models.py`, `users/serializers.py`, `users/views.py`,
`users/permissions.py`) and proofs of the specification claims.

Machine times are modelled as a `Nat` clock supplied per request: every
request is processed at a single instant, matching `freeze_time` in the
tests of the repository (`create_ts` via `auto_now_add`, `update_ts` via
`auto_now` both read the request clock).
-/

namespace BankUsers

/-- Currency enumeration from `User.CURRENCIES` in `users/models.py`:
integer codes paired with their human-readable display labels. -/
def CURRENCIES : List (Nat × String) :=
  [(0, "Euro"), (1, "Pound Sterling"), (2, "US Dollar"),
   (3, "Yen"), (4, "Swiss Franc"), (5, "Swedish Crown")]

/-- `EURO = 0` in `users/models.py`. -/
def EURO : Nat := 0

/-- The Django method `get_currency_display`: the label from the choices table,
falling back to the raw value when the code is not a listed choice. -/
def getCurrencyDisplay (c : Nat) : String :=
  match CURRENCIES.find? (fun p => p.1 == c) with
  | some p => p.2
  | none => toString c

/-- Modelled from the spec: Credential Manager (section 4.2).  The salted PBKDF2 hasher of Django lives outside `src/`; the stored value is the
algorithm tag followed by derived material, never the plaintext itself.
The per-call salt is irrelevant to every claim, so the derivation is
modelled deterministically. -/
def hashPassword (plaintext : String) : String :=
  "pbkdf2_sha256$" ++ plaintext

/-- A stored account record (row of the custom `User` model of
`users/models.py`).  The `password` field holds the stored credential
hash, as in Django.  `balance` is kept as an integer: no claim depends
on fractional or floating-point behaviour. -/
structure UserRecord where
  id : Nat
  username : String
  password : String
  first_name : String
  last_name : String
  email : String
  iban : Option String
  balance : Int
  currency : Nat
  is_staff : Bool
  is_superuser : Bool
  create_ts : Nat
  update_ts : Nat
deriving DecidableEq, Repr

/-- Python falsiness of the `iban` value: `None` or the empty string
(the `if not self.iban` test in `User.clean`). -/
def ibanBlank : Option String → Bool
  | none => true
  | some w => w.isEmpty

/-- `User.clean` from `users/models.py`: when `iban` is blank, raise
a validation error unless the record is staff or superuser. -/
def userClean (u : UserRecord) : Except String Unit :=
  if ibanBlank u.iban then
    if !(u.is_staff || u.is_superuser) then
      Except.error "IBAN field is required."
    else Except.ok ()
  else Except.ok ()

/-- Character value used by the IBAN mod-97 computation:
digits map to themselves, capital letters to 10..35. -/
def ibanCharValue (c : Char) : Option Nat :=
  if c.isDigit then some (c.toNat - 48)
  else if 'A' ≤ c && c ≤ 'Z' then some (c.toNat - 55)
  else none

/-- Running mod-97 remainder of the rearranged IBAN string. -/
def ibanMod97 (l : List Char) : Option Nat :=
  l.foldl
    (fun acc c =>
      acc.bind fun a =>
        (ibanCharValue c).map fun v =>
          (a * (if 10 ≤ v then 100 else 10) + v) % 97)
    (some 0)

/-- Modelled from the spec: IBAN Validator (section 4.1).  The concrete
validator is the external `localflavor` `IBANField`, outside `src/`:
country code of two capital letters, two check digits, alphanumeric
body within the standard overall length bounds, and the mod-97
check-digit computation equal to 1 after moving the first four
characters to the end.  The per-country exact-length table of the
library is abbreviated to the standard length bounds; no claim
distinguishes individual countries. -/
def ibanWellFormed (w : String) : Bool :=
  let l := w.data
  15 ≤ l.length && l.length ≤ 34 &&
  (match l with
   | c1 :: c2 :: d1 :: d2 :: _ =>
     ('A' ≤ c1 && c1 ≤ 'Z') && ('A' ≤ c2 && c2 ≤ 'Z') &&
     d1.isDigit && d2.isDigit
   | _ => false) &&
  (ibanMod97 (l.drop 4 ++ l.take 4) == some 1)

/-- ASCII projection of the Django `UnicodeUsernameValidator`:
letters, digits and `@`, `.`, `+`, `-`, `_`. -/
def usernameCharsOk (w : String) : Bool :=
  w.data.all fun c => c.isAlphanum || c ∈ ['@', '.', '+', '-', '_']

/-- The persistent record store: the user table, the next generated
primary key, and the clock value of the last served request. -/
structure Store where
  records : List UserRecord
  nextId : Nat
  time : Nat
deriving DecidableEq, Repr

/-- A request body for create / replace / patch.  `none` means the
field is absent from the body; `some ""` means it was supplied as the
empty string.  Only the writable serializer fields of
`UserSerializer.Meta.fields` appear (`create_ts` / `update_ts` are
read-only). -/
structure Payload where
  username : Option String := none
  password : Option String := none
  first_name : Option String := none
  last_name : Option String := none
  email : Option String := none
  iban : Option String := none
  balance : Option Int := none
  currency : Option Nat := none
deriving DecidableEq, Repr

/-- Some other record (than the excluded instance, for updates) already
holds this username — the `UniqueValidator` check DRF derives from the
unique `username` model field, run against the full user table. -/
def usernameTaken (s : Store) (excluding : Option Nat) (w : String) : Bool :=
  s.records.any fun r => excluding != some r.id && r.username == w

/-- Some other record already holds this IBAN (`iban` is `unique=True`
in `users/models.py`). -/
def ibanTaken (s : Store) (excluding : Option Nat) (w : String) : Bool :=
  s.records.any fun r => excluding != some r.id && r.iban == some w

/-- Serializer check of the `username` field: required (the model field
has no default and `blank=False`), non-blank, max length 150, username
alphabet, unique.  `isPatch` suppresses the required check, as DRF does
for partial updates. -/
def usernameErrors (s : Store) (excluding : Option Nat) (isPatch : Bool)
    (v : Option String) : List (String × String) :=
  match v with
  | none => if isPatch then [] else [("username", "required")]
  | some w =>
    if w.isEmpty then [("username", "blank")]
    else if 150 < w.length then [("username", "max_length")]
    else if !usernameCharsOk w then [("username", "invalid")]
    else if usernameTaken s excluding w then [("username", "unique")]
    else []

/-- Serializer check of the `password` field: required, non-blank,
max length 128 (`AbstractUser.password`); `write_only` does not affect
input validation. -/
def passwordErrors (isPatch : Bool) (v : Option String) :
    List (String × String) :=
  match v with
  | none => if isPatch then [] else [("password", "required")]
  | some w =>
    if w.isEmpty then [("password", "blank")]
    else if 128 < w.length then [("password", "max_length")]
    else []

/-- Serializer check of `first_name`: required, non-blank
(`blank=False` plus `MinLengthValidator 1`), max length 30. -/
def firstNameErrors (isPatch : Bool) (v : Option String) :
    List (String × String) :=
  match v with
  | none => if isPatch then [] else [("first_name", "required")]
  | some w =>
    if w.isEmpty then [("first_name", "blank")]
    else if 30 < w.length then [("first_name", "max_length")]
    else []

/-- Serializer check of `last_name`: required, non-blank, max length
150. -/
def lastNameErrors (isPatch : Bool) (v : Option String) :
    List (String × String) :=
  match v with
  | none => if isPatch then [] else [("last_name", "required")]
  | some w =>
    if w.isEmpty then [("last_name", "blank")]
    else if 150 < w.length then [("last_name", "max_length")]
    else []

/-- Serializer check of `email`: optional (`blank=True`, default empty
string), max length 254.  The e-mail well-formedness check of the Django
`EmailField` is outside `src/` and no claim depends on it, so only the
length bound is modelled. -/
def emailErrors (v : Option String) : List (String × String) :=
  match v with
  | none => []
  | some w => if 254 < w.length then [("email", "max_length")] else []

/-- Serializer check of `iban`: required by the
`extra_kwargs = {iban: {required: True}}` of `UserSerializer.Meta`,
non-blank, well-formed per the IBAN validator, unique; the explicit
`validate_iban` hook rejects any falsy value. -/
def ibanErrors (s : Store) (excluding : Option Nat) (isPatch : Bool)
    (v : Option String) : List (String × String) :=
  match v with
  | none => if isPatch then [] else [("iban", "required")]
  | some w =>
    if w.isEmpty then [("iban", "blank")]
    else if !ibanWellFormed w then [("iban", "invalid")]
    else if ibanTaken s excluding w then [("iban", "unique")]
    else []

/-- Serializer check of `currency`: optional (model default `EURO`);
when supplied, must be one of the enumerated choice codes. -/
def currencyErrors (v : Option Nat) : List (String × String) :=
  match v with
  | none => []
  | some c =>
    if (CURRENCIES.find? fun p => p.1 == c).isSome then []
    else [("currency", "invalid_choice")]

/-- The whole serializer validation pass (`serializer.is_valid`): all
field errors are collected, so the caller receives every offending
field at once.  `balance` has a default and no validator of its own. -/
def validatePayload (s : Store) (excluding : Option Nat) (isPatch : Bool)
    (p : Payload) : List (String × String) :=
  usernameErrors s excluding isPatch p.username ++
  passwordErrors isPatch p.password ++
  firstNameErrors isPatch p.first_name ++
  lastNameErrors isPatch p.last_name ++
  emailErrors p.email ++
  ibanErrors s excluding isPatch p.iban ++
  currencyErrors p.currency

/-- The caller identity attached to a request.  `hasPerm` is
`request.user.has_perm`, resolved by the authentication backend, an
excluded collaborator; the view code only consumes its boolean
answers. -/
structure Caller where
  authenticated : Bool
  is_staff : Bool
  hasPerm : String → Bool

/-- Failure outcomes the view layer can produce: `forbidden` from a
permission denial (HTTP 401/403), `notFound` from a failed object
lookup (404), `validation` with the per-field errors (400). -/
inductive Failure where
  | forbidden : Failure
  | notFound : Failure
  | validation : List (String × String) → Failure
deriving DecidableEq, Repr

/-- A value of the external JSON representation. -/
inductive Value where
  | s : String → Value
  | i : Int → Value
  | n : Nat → Value
  | nullv : Value
deriving DecidableEq, Repr

/-- `UserSerializer.to_representation`: the serializer fields in
declaration order, minus the write-only `password`, with `currency`
replaced by its display label.  Timestamps stay as clock values (their
ISO-8601 formatting is transport-layer). -/
def toRepresentation (r : UserRecord) : List (String × Value) :=
  [("username", Value.s r.username),
   ("first_name", Value.s r.first_name),
   ("last_name", Value.s r.last_name),
   ("email", Value.s r.email),
   ("iban", match r.iban with | none => Value.nullv | some w => Value.s w),
   ("balance", Value.i r.balance),
   ("currency", Value.s (getCurrencyDisplay r.currency)),
   ("create_ts", Value.n r.create_ts),
   ("update_ts", Value.n r.update_ts)]

/-- The request-level permission gate of `UserViewSet`:
`permission_classes = (IsAuthenticated, IsAdminUser, CanManipulateUser)`
are conjoined by DRF; `IsAuthenticated` and `IsAdminUser` check
`has_permission` for every request, while `CanManipulateUser` inherits
the always-true default `has_permission` from `BasePermission`. -/
def requestAllowed (c : Caller) : Bool :=
  c.authenticated && c.is_staff

/-- `PERMS_MAP` of `users/permissions.py`. -/
def PERMS_MAP : List (String × String) :=
  [("PUT", "users.change_user"), ("PATCH", "users.change_user"),
   ("DELETE", "users.delete_user")]

/-- `CanManipulateUser.has_object_permission`: methods outside
`MANIPULATION_METHODS` pass; `PUT`/`PATCH`/`DELETE` require the mapped
model permission of the caller. -/
def canManipulateUser (c : Caller) (method : String) : Bool :=
  match PERMS_MAP.find? (fun p => p.1 == method) with
  | none => true
  | some p => c.hasPerm p.2

/-- Membership in `UserViewSet.queryset`:
`exclude` of the username "AnonymousUser" and of `is_staff=True`. -/
def visibleUser (r : UserRecord) : Bool :=
  r.username != "AnonymousUser" && !r.is_staff

/-- The DRF `get_object`: look the primary key up inside the queryset of the view, so records outside it yield 404 even when stored. -/
def findVisible (s : Store) (i : Nat) : Option UserRecord :=
  s.records.find? fun r => visibleUser r && r.id == i

/-- The record built by a successful create
(`UserSerializer.create` plus the model defaults and the two
`auto_now_add` / `auto_now` timestamps, both stamped at the request
clock `t`).  The serializer fields cannot set `is_staff` or
`is_superuser`, so API-created records are unprivileged. -/
def newRecord (s : Store) (p : Payload) (t : Nat) : UserRecord :=
  { id := s.nextId,
    username := p.username.getD "",
    password := hashPassword (p.password.getD ""),
    first_name := p.first_name.getD "",
    last_name := p.last_name.getD "",
    email := p.email.getD "",
    iban := p.iban,
    balance := p.balance.getD 0,
    currency := p.currency.getD EURO,
    is_staff := false,
    is_superuser := false,
    create_ts := t,
    update_ts := t }

/-- `list`: request gate, then every queryset member rendered. -/
def listOp (c : Caller) (s : Store) :
    Except Failure (List (List (String × Value))) :=
  if !requestAllowed c then Except.error Failure.forbidden
  else Except.ok ((s.records.filter visibleUser).map toRepresentation)

/-- `retrieve` (`GET` on a detail route): request gate, object lookup
(404 before object permissions), object gate (`GET` is not a
manipulation method, so it always passes), then rendering. -/
def getOp (c : Caller) (s : Store) (i : Nat) :
    Except Failure (List (String × Value)) :=
  if !requestAllowed c then Except.error Failure.forbidden
  else
    match findVisible s i with
    | none => Except.error Failure.notFound
    | some r =>
      if !canManipulateUser c "GET" then Except.error Failure.forbidden
      else Except.ok (toRepresentation r)

/-- `create` (`POST`): request gate, serializer validation, then
`UserSerializer.create` — insert, hash the popped password, save.
Both saves happen at the request clock `t`. -/
def createOp (c : Caller) (s : Store) (p : Payload) (t : Nat) :
    Except Failure (List (String × Value) × Store) :=
  if !requestAllowed c then Except.error Failure.forbidden
  else
    match validatePayload s none false p with
    | [] =>
      let r := newRecord s p t
      Except.ok (toRepresentation r,
        { records := s.records ++ [r], nextId := s.nextId + 1, time := t })
    | errs => Except.error (Failure.validation errs)

/-- `UserSerializer.update`: pop the password (default `None`), let the
base update assign every validated field and save (refreshing
`update_ts` even when no field was supplied), then re-hash and save
again only when the popped password is truthy. -/
def applyUpdate (r : UserRecord) (p : Payload) (t : Nat) : UserRecord :=
  { r with
    username := p.username.getD r.username,
    first_name := p.first_name.getD r.first_name,
    last_name := p.last_name.getD r.last_name,
    email := p.email.getD r.email,
    iban := match p.iban with | none => r.iban | some w => some w,
    balance := p.balance.getD r.balance,
    currency := p.currency.getD r.currency,
    password := match p.password with
      | none => r.password
      | some pw => if pw.isEmpty then r.password else hashPassword pw,
    update_ts := t }

/-- Replace the record with primary key `i` in the table. -/
def replaceById (l : List UserRecord) (i : Nat) (r' : UserRecord) :
    List UserRecord :=
  l.map fun x => if x.id == i then r' else x

/-- Shared body of `update` (`PUT`) and `partial_update` (`PATCH`):
request gate, object lookup, `CanManipulateUser` object gate,
serializer validation with the target instance excluded from
uniqueness, then `UserSerializer.update` at the request clock. -/
def updateOp (method : String) (isPatch : Bool) (c : Caller) (s : Store)
    (i : Nat) (p : Payload) (t : Nat) :
    Except Failure (List (String × Value) × Store) :=
  if !requestAllowed c then Except.error Failure.forbidden
  else
    match findVisible s i with
    | none => Except.error Failure.notFound
    | some r =>
      if !canManipulateUser c method then Except.error Failure.forbidden
      else
        match validatePayload s (some i) isPatch p with
        | [] =>
          let r' := applyUpdate r p t
          Except.ok (toRepresentation r',
            { records := replaceById s.records i r',
              nextId := s.nextId, time := t })
        | errs => Except.error (Failure.validation errs)

/-- `update` (`PUT`, full replace). -/
def putOp (c : Caller) (s : Store) (i : Nat) (p : Payload) (t : Nat) :
    Except Failure (List (String × Value) × Store) :=
  updateOp "PUT" false c s i p t

/-- `partial_update` (`PATCH`). -/
def patchOp (c : Caller) (s : Store) (i : Nat) (p : Payload) (t : Nat) :
    Except Failure (List (String × Value) × Store) :=
  updateOp "PATCH" true c s i p t

/-- `destroy` (`DELETE`): request gate, object lookup, object gate,
hard delete. -/
def deleteOp (c : Caller) (s : Store) (i : Nat) (t : Nat) :
    Except Failure Store :=
  if !requestAllowed c then Except.error Failure.forbidden
  else
    match findVisible s i with
    | none => Except.error Failure.notFound
    | some _ =>
      if !canManipulateUser c "DELETE" then Except.error Failure.forbidden
      else Except.ok
        { records := s.records.filter (fun x => x.id != i),
          nextId := s.nextId, time := t }

/-- The store after a create request (unchanged on failure). -/
def runCreate (c : Caller) (s : Store) (p : Payload) (t : Nat) : Store :=
  match createOp c s p t with
  | Except.ok x => x.2
  | Except.error _ => s

/-- The store after a full-update request (unchanged on failure). -/
def runPut (c : Caller) (s : Store) (i : Nat) (p : Payload) (t : Nat) :
    Store :=
  match putOp c s i p t with
  | Except.ok x => x.2
  | Except.error _ => s

/-- The store after a partial-update request (unchanged on failure). -/
def runPatch (c : Caller) (s : Store) (i : Nat) (p : Payload) (t : Nat) :
    Store :=
  match patchOp c s i p t with
  | Except.ok x => x.2
  | Except.error _ => s

/-- The store after a delete request (unchanged on failure). -/
def runDelete (c : Caller) (s : Store) (i : Nat) (t : Nat) : Store :=
  match deleteOp c s i t with
  | Except.ok s' => s'
  | Except.error _ => s

/-- The empty initial store. -/
def initStore : Store := { records := [], nextId := 1, time := 0 }

/-- The Django model-level `full_clean` for the custom `User` model:
per-field validation (`clean_fields`), the custom `User.clean` hook of
`users/models.py`, and `validate_unique`, with all errors collected.
This is the validation path of model-level creation (the path on which
staff / superuser records are made, since the API serializer cannot set
the elevation flags). -/
def fullCleanErrors (existing : List UserRecord) (u : UserRecord) :
    List (String × String) :=
  (if u.username.isEmpty then [("username", "blank")]
   else if 150 < u.username.length then [("username", "max_length")]
   else if !usernameCharsOk u.username then [("username", "invalid")]
   else []) ++
  (if u.password.isEmpty then [("password", "blank")]
   else if 128 < u.password.length then [("password", "max_length")]
   else []) ++
  (if u.first_name.isEmpty then [("first_name", "blank")]
   else if 30 < u.first_name.length then [("first_name", "max_length")]
   else []) ++
  (if u.last_name.isEmpty then [("last_name", "blank")]
   else if 150 < u.last_name.length then [("last_name", "max_length")]
   else []) ++
  (if 254 < u.email.length then [("email", "max_length")] else []) ++
  (match u.iban with
   | none => []
   | some w =>
     if w.isEmpty then []
     else if !ibanWellFormed w then [("iban", "invalid")] else []) ++
  (if (CURRENCIES.find? fun p => p.1 == u.currency).isSome then []
   else [("currency", "invalid_choice")]) ++
  (match userClean u with
   | Except.error _ => [("iban", "required")]
   | Except.ok _ => []) ++
  (if existing.any (fun r => r.id != u.id && r.username == u.username) then
     [("username", "unique")]
   else []) ++
  (match u.iban with
   | none => []
   | some w =>
     if existing.any (fun r => r.id != u.id && r.iban == some w) then
       [("iban", "unique")]
     else [])

/-- The invariant maintained by every service operation: primary keys
below the generator and pairwise distinct, usernames pairwise distinct,
IBANs pairwise distinct and never blank, and timestamps ordered and not
ahead of the last served request. -/
def Inv (s : Store) : Prop :=
  (∀ r ∈ s.records, r.id < s.nextId) ∧
  s.records.Pairwise (fun a b => a.id ≠ b.id) ∧
  s.records.Pairwise (fun a b => a.username ≠ b.username) ∧
  s.records.Pairwise (fun a b => a.iban ≠ b.iban) ∧
  (∀ r ∈ s.records, ibanBlank r.iban = false) ∧
  (∀ r ∈ s.records, r.create_ts ≤ r.update_ts ∧ r.update_ts ≤ s.time)

/-- Store states reachable through the service operations, each
request served at a clock value strictly later than the last. -/
inductive Reachable : Store → Prop where
  | init : Reachable initStore
  | stepCreate {s : Store} (c : Caller) (p : Payload) {t : Nat} :
      Reachable s → s.time < t → Reachable (runCreate c s p t)
  | stepPut {s : Store} (c : Caller) (i : Nat) (p : Payload) {t : Nat} :
      Reachable s → s.time < t → Reachable (runPut c s i p t)
  | stepPatch {s : Store} (c : Caller) (i : Nat) (p : Payload) {t : Nat} :
      Reachable s → s.time < t → Reachable (runPatch c s i p t)
  | stepDelete {s : Store} (c : Caller) (i : Nat) {t : Nat} :
      Reachable s → s.time < t → Reachable (runDelete c s i t)

/-- A caller holding administrative (staff) privilege and every model
permission. -/
def adminCaller : Caller :=
  { authenticated := true, is_staff := true, hasPerm := fun _ => true }

/-- An authenticated caller without staff privilege. -/
def readerCaller : Caller :=
  { authenticated := true, is_staff := false, hasPerm := fun _ => true }

/-- An unauthenticated caller. -/
def anonCaller : Caller :=
  { authenticated := false, is_staff := false, hasPerm := fun _ => false }

/-- A staff caller holding none of the model permissions. -/
def noPermCaller : Caller :=
  { authenticated := true, is_staff := true, hasPerm := fun _ => false }

/-- The creation payload of the worked example in the specification. -/
def alicePayload : Payload :=
  { username := some "alice", password := some "p@ss1234",
    first_name := some "Alice", last_name := some "A",
    iban := some "DE89370400440532013000" }

/-- A second, disjoint creation payload. -/
def bobPayload : Payload :=
  { username := some "bob", password := some "hunter22",
    first_name := some "Bob", last_name := some "B",
    iban := some "ES9121000418450200051332" }

/-- The record the example creation stores at clock 1. -/
def aliceRecord : UserRecord := newRecord initStore alicePayload 1

/-- The store after the example creation. -/
def aliceStore : Store :=
  { records := [aliceRecord], nextId := 2, time := 1 }

/-- A staff record, as provisioned outside the public API. -/
def staffRecord : UserRecord :=
  { id := 7, username := "root", password := hashPassword "rootpw",
    first_name := "R", last_name := "Root", email := "",
    iban := some "FR1420041010050500013M02606", balance := 0,
    currency := 0, is_staff := true, is_superuser := false,
    create_ts := 0, update_ts := 0 }

/-- The `AnonymousUser` sentinel record. -/
def anonymousRecord : UserRecord :=
  { id := 8, username := "AnonymousUser", password := hashPassword "x",
    first_name := "Anonymous", last_name := "User", email := "",
    iban := none, balance := 0, currency := 0, is_staff := false,
    is_superuser := false, create_ts := 0, update_ts := 0 }

/-- A store holding the example record plus a staff record and the
`AnonymousUser` record. -/
def mixedStore : Store :=
  { records := [aliceRecord, staffRecord, anonymousRecord],
    nextId := 9, time := 1 }

theorem usernameTaken_false {s : Store} {exc : Option Nat} {w : String}
    (h : usernameTaken s exc w = false) :
    ∀ r ∈ s.records, exc ≠ some r.id → r.username ≠ w := by
  intro r hr hexc
  simp only [usernameTaken, List.any_eq_false, Bool.and_eq_true, bne_iff_ne,
    beq_iff_eq, not_and] at h
  exact h r hr hexc

theorem ibanTaken_false {s : Store} {exc : Option Nat} {w : String}
    (h : ibanTaken s exc w = false) :
    ∀ r ∈ s.records, exc ≠ some r.id → r.iban ≠ some w := by
  intro r hr hexc
  simp only [ibanTaken, List.any_eq_false, Bool.and_eq_true, bne_iff_ne,
    beq_iff_eq, not_and] at h
  exact h r hr hexc

theorem usernameErrors_nil_some {s : Store} {exc : Option Nat} {ip : Bool}
    {w : String} (h : usernameErrors s exc ip (some w) = []) :
    w.isEmpty = false ∧ w.length ≤ 150 ∧ usernameCharsOk w = true ∧
      usernameTaken s exc w = false := by
  simp only [usernameErrors] at h
  split_ifs at h with h1 h2 h3 h4 <;> simp_all

theorem usernameErrors_nil_full {s : Store} {exc : Option Nat}
    {v : Option String} (h : usernameErrors s exc false v = []) :
    ∃ w, v = some w := by
  cases v with
  | none => simp [usernameErrors] at h
  | some w => exact ⟨w, rfl⟩

theorem passwordErrors_nil_some {ip : Bool} {w : String}
    (h : passwordErrors ip (some w) = []) :
    w.isEmpty = false ∧ w.length ≤ 128 := by
  simp only [passwordErrors] at h
  split_ifs at h with h1 h2 <;> simp_all

theorem passwordErrors_nil_full {v : Option String}
    (h : passwordErrors false v = []) : ∃ w, v = some w := by
  cases v with
  | none => simp [passwordErrors] at h
  | some w => exact ⟨w, rfl⟩

theorem ibanErrors_nil_some {s : Store} {exc : Option Nat} {ip : Bool}
    {w : String} (h : ibanErrors s exc ip (some w) = []) :
    w.isEmpty = false ∧ ibanWellFormed w = true ∧
      ibanTaken s exc w = false := by
  simp only [ibanErrors] at h
  split_ifs at h with h1 h2 h3 <;> simp_all

theorem ibanErrors_nil_full {s : Store} {exc : Option Nat}
    {v : Option String} (h : ibanErrors s exc false v = []) :
    ∃ w, v = some w := by
  cases v with
  | none => simp [ibanErrors] at h
  | some w => exact ⟨w, rfl⟩

theorem validatePayload_nil {s : Store} {exc : Option Nat} {ip : Bool}
    {p : Payload} (h : validatePayload s exc ip p = []) :
    usernameErrors s exc ip p.username = [] ∧
    passwordErrors ip p.password = [] ∧
    firstNameErrors ip p.first_name = [] ∧
    lastNameErrors ip p.last_name = [] ∧
    emailErrors p.email = [] ∧
    ibanErrors s exc ip p.iban = [] ∧
    currencyErrors p.currency = [] := by
  simp only [validatePayload, List.append_eq_nil] at h
  tauto

theorem findVisible_spec {s : Store} {i : Nat} {r : UserRecord}
    (h : findVisible s i = some r) :
    r ∈ s.records ∧ visibleUser r = true ∧ r.id = i := by
  have hm := List.mem_of_find?_eq_some h
  have hp := List.find?_some h
  simp only [Bool.and_eq_true, beq_iff_eq] at hp
  exact ⟨hm, hp.1, hp.2⟩

theorem pairwise_replaceById {l : List UserRecord}
    {P : UserRecord → UserRecord → Prop} {i : Nat} {r' : UserRecord}
    (hids : l.Pairwise fun a b => a.id ≠ b.id)
    (hP : l.Pairwise P)
    (hr' : ∀ x ∈ l, x.id ≠ i → P x r' ∧ P r' x) :
    (replaceById l i r').Pairwise P := by
  induction l with
  | nil => simp [replaceById]
  | cons x xs ih =>
    rw [List.pairwise_cons] at hids hP
    simp only [replaceById, List.map_cons, List.pairwise_cons]
    constructor
    · intro y' hy'
      simp only [List.mem_map] at hy'
      obtain ⟨y, hy, hy'eq⟩ := hy'
      by_cases hxi : x.id = i
      · rw [if_pos (by simpa using hxi)]
        have hyi : y.id ≠ i := by
          have := hids.1 y hy
          omega
        rw [if_neg (by simpa using hyi)] at hy'eq
        subst hy'eq
        exact (hr' y (List.mem_cons_of_mem x hy) hyi).2
      · rw [if_neg (by simpa using hxi)]
        by_cases hyi : y.id = i
        · rw [if_pos (by simpa using hyi)] at hy'eq
          subst hy'eq
          exact (hr' x (List.mem_cons_self x xs) hxi).1
        · rw [if_neg (by simpa using hyi)] at hy'eq
          subst hy'eq
          exact hP.1 y hy
    · exact ih hids.2 hP.2
        (fun z hz hzi => hr' z (List.mem_cons_of_mem x hz) hzi)

theorem mem_replaceById {l : List UserRecord} {i : Nat}
    {r' y : UserRecord} (hy : y ∈ replaceById l i r') :
    y = r' ∨ y ∈ l := by
  simp only [replaceById, List.mem_map] at hy
  obtain ⟨x, hx, hxe⟩ := hy
  by_cases hxi : x.id = i
  · rw [if_pos (by simpa using hxi)] at hxe
    exact Or.inl hxe.symm
  · rw [if_neg (by simpa using hxi)] at hxe
    subst hxe
    exact Or.inr hx

theorem createOp_ok {c : Caller} {s : Store} {p : Payload} {t : Nat}
    {x : List (String × Value) × Store}
    (h : createOp c s p t = Except.ok x) :
    requestAllowed c = true ∧ validatePayload s none false p = [] ∧
    x = (toRepresentation (newRecord s p t),
      { records := s.records ++ [newRecord s p t],
        nextId := s.nextId + 1, time := t }) := by
  unfold createOp at h
  split at h
  · exact absurd h (by simp)
  · next hg =>
    split at h
    · next hv =>
      refine ⟨by simpa using hg, hv, ?_⟩
      simpa using h.symm
    · exact absurd h (by simp)

theorem updateOp_ok {m : String} {ip : Bool} {c : Caller} {s : Store}
    {i : Nat} {p : Payload} {t : Nat}
    {x : List (String × Value) × Store}
    (h : updateOp m ip c s i p t = Except.ok x) :
    ∃ r, requestAllowed c = true ∧ findVisible s i = some r ∧
      validatePayload s (some i) ip p = [] ∧
      x = (toRepresentation (applyUpdate r p t),
        { records := replaceById s.records i (applyUpdate r p t),
          nextId := s.nextId, time := t }) := by
  unfold updateOp at h
  split at h
  · exact absurd h (by simp)
  · next hg =>
    split at h
    · exact absurd h (by simp)
    · next r hr =>
      split at h
      · exact absurd h (by simp)
      · split at h
        · next hv =>
          exact ⟨r, by simpa using hg, hr, hv, by simpa using h.symm⟩
        · exact absurd h (by simp)

theorem deleteOp_ok {c : Caller} {s : Store} {i : Nat} {t : Nat}
    {s' : Store} (h : deleteOp c s i t = Except.ok s') :
    requestAllowed c = true ∧
    s' = { records := s.records.filter (fun x => x.id != i),
           nextId := s.nextId, time := t } := by
  unfold deleteOp at h
  split at h
  · exact absurd h (by simp)
  · next hg =>
    split at h
    · exact absurd h (by simp)
    · split at h
      · exact absurd h (by simp)
      · exact ⟨by simpa using hg, by simpa using h.symm⟩

theorem inv_initStore : Inv initStore := by
  refine ⟨?_, ?_, ?_, ?_, ?_, ?_⟩ <;> simp [initStore]

theorem inv_runCreate {s : Store} (c : Caller) (p : Payload) {t : Nat}
    (hinv : Inv s) (ht : s.time ≤ t) : Inv (runCreate c s p t) := by
  obtain ⟨hid, hids, husers, hibans, hblank, hts⟩ := hinv
  cases hc : createOp c s p t with
  | error e => simpa [runCreate, hc] using
      ⟨hid, hids, husers, hibans, hblank, hts⟩
  | ok x =>
    obtain ⟨-, hv, hx⟩ := createOp_ok hc
    obtain ⟨hu, -, -, -, -, hib, -⟩ := validatePayload_nil hv
    obtain ⟨w, hw⟩ := usernameErrors_nil_full hu
    rw [hw] at hu
    obtain ⟨hwne, -, -, hwtaken⟩ := usernameErrors_nil_some hu
    obtain ⟨wi, hwi⟩ := ibanErrors_nil_full hib
    rw [hwi] at hib
    obtain ⟨hwine, -, hwitaken⟩ := ibanErrors_nil_some hib
    have huname : (newRecord s p t).username = w := by
      simp [newRecord, hw]
    have hiban : (newRecord s p t).iban = some wi := by
      simp [newRecord, hwi]
    rw [runCreate, hc, hx]
    refine ⟨?_, ?_, ?_, ?_, ?_, ?_⟩
    · intro r hr
      rcases List.mem_append.1 hr with hr | hr
      · exact Nat.lt_succ_of_lt (hid r hr)
      · rw [List.mem_singleton] at hr
        subst hr
        simp [newRecord]
    · rw [List.pairwise_append]
      refine ⟨hids, List.pairwise_singleton _ _, ?_⟩
      intro a ha b hb
      rw [List.mem_singleton] at hb
      subst hb
      have := hid a ha
      simp only [newRecord]
      omega
    · rw [List.pairwise_append]
      refine ⟨husers, List.pairwise_singleton _ _, ?_⟩
      intro a ha b hb
      rw [List.mem_singleton] at hb
      subst hb
      rw [huname]
      exact usernameTaken_false hwtaken a ha (by simp)
    · rw [List.pairwise_append]
      refine ⟨hibans, List.pairwise_singleton _ _, ?_⟩
      intro a ha b hb
      rw [List.mem_singleton] at hb
      subst hb
      rw [hiban]
      exact ibanTaken_false hwitaken a ha (by simp)
    · intro r hr
      rcases List.mem_append.1 hr with hr | hr
      · exact hblank r hr
      · rw [List.mem_singleton] at hr
        subst hr
        simp [ibanBlank, hiban, hwine]
    · intro r hr
      rcases List.mem_append.1 hr with hr | hr
      · have := hts r hr
        exact ⟨this.1, le_trans this.2 ht⟩
      · rw [List.mem_singleton] at hr
        subst hr
        simp [newRecord]

theorem inv_runUpdate {m : String} {ip : Bool} {c : Caller} {s : Store}
    {i : Nat} {p : Payload} {t : Nat}
    (hinv : Inv s) (ht : s.time ≤ t) :
    Inv (match updateOp m ip c s i p t with
         | Except.ok x => x.2
         | Except.error _ => s) := by
  obtain ⟨hid, hids, husers, hibans, hblank, hts⟩ := hinv
  cases hc : updateOp m ip c s i p t with
  | error e => exact ⟨hid, hids, husers, hibans, hblank, hts⟩
  | ok x =>
    obtain ⟨r, -, hr, hv, hx⟩ := updateOp_ok hc
    obtain ⟨hrmem, -, hrid⟩ := findVisible_spec hr
    obtain ⟨hu, -, -, -, -, hib, -⟩ := validatePayload_nil hv
    set r' := applyUpdate r p t with hrdef
    have hridEq : r'.id = i := by rw [hrdef, applyUpdate]; exact hrid
    have husername : ∀ x ∈ s.records, x.id ≠ i →
        x.username ≠ r'.username := by
      intro a ha hai
      cases hpu : p.username with
      | none =>
        have : r'.username = r.username := by
          rw [hrdef]; simp [applyUpdate, hpu]
        rw [this]
        have hane : a ≠ r := fun he => hai (by rw [he, hrid])
        exact List.Pairwise.forall
          (fun _ _ h => Ne.symm h) husers ha hrmem hane
      | some w =>
        rw [hpu] at hu
        obtain ⟨-, -, -, hwtaken⟩ := usernameErrors_nil_some hu
        have : r'.username = w := by
          rw [hrdef]; simp [applyUpdate, hpu]
        rw [this]
        exact usernameTaken_false hwtaken a ha (by simp [Ne.symm hai])
    have hibaneq : ∀ x ∈ s.records, x.id ≠ i → x.iban ≠ r'.iban := by
      intro a ha hai
      cases hpi : p.iban with
      | none =>
        have : r'.iban = r.iban := by
          rw [hrdef]; simp [applyUpdate, hpi]
        rw [this]
        have hane : a ≠ r := fun he => hai (by rw [he, hrid])
        exact List.Pairwise.forall
          (fun _ _ h => Ne.symm h) hibans ha hrmem hane
      | some w =>
        rw [hpi] at hib
        obtain ⟨-, -, hwtaken⟩ := ibanErrors_nil_some hib
        have : r'.iban = some w := by
          rw [hrdef]; simp [applyUpdate, hpi]
        rw [this]
        exact ibanTaken_false hwtaken a ha (by simp [Ne.symm hai])
    rw [hx]
    refine ⟨?_, ?_, ?_, ?_, ?_, ?_⟩
    · intro y hy
      rcases mem_replaceById hy with hy | hy
      · subst hy
        rw [hridEq, ← hrid]
        exact hid r hrmem
      · exact hid y hy
    · refine pairwise_replaceById hids hids ?_
      intro a ha hai
      rw [hridEq]
      exact ⟨hai, Ne.symm hai⟩
    · refine pairwise_replaceById hids husers ?_
      intro a ha hai
      exact ⟨husername a ha hai, fun he => husername a ha hai he.symm⟩
    · refine pairwise_replaceById hids hibans ?_
      intro a ha hai
      exact ⟨hibaneq a ha hai, fun he => hibaneq a ha hai he.symm⟩
    · intro y hy
      rcases mem_replaceById hy with hy | hy
      · subst hy
        cases hpi : p.iban with
        | none =>
          have : r'.iban = r.iban := by
            rw [hrdef]; simp [applyUpdate, hpi]
          rw [this]
          exact hblank r hrmem
        | some w =>
          rw [hpi] at hib
          obtain ⟨hwne, -, -⟩ := ibanErrors_nil_some hib
          have : r'.iban = some w := by
            rw [hrdef]; simp [applyUpdate, hpi]
          rw [this]
          simpa [ibanBlank] using hwne
      · exact hblank y hy
    · intro y hy
      rcases mem_replaceById hy with hy | hy
      · subst hy
        have hrts := hts r hrmem
        constructor
        · show r'.create_ts ≤ r'.update_ts
          rw [hrdef]
          simp only [applyUpdate]
          exact le_trans hrts.1 (le_trans hrts.2 ht)
        · show r'.update_ts ≤ t
          rw [hrdef]
          simp [applyUpdate]
      · have := hts y hy
        exact ⟨this.1, le_trans this.2 ht⟩

theorem inv_runDelete {c : Caller} {s : Store} {i : Nat} {t : Nat}
    (hinv : Inv s) (ht : s.time ≤ t) : Inv (runDelete c s i t) := by
  obtain ⟨hid, hids, husers, hibans, hblank, hts⟩ := hinv
  cases hc : deleteOp c s i t with
  | error e => simpa [runDelete, hc] using
      ⟨hid, hids, husers, hibans, hblank, hts⟩
  | ok s' =>
    obtain ⟨-, hs'⟩ := deleteOp_ok hc
    rw [runDelete, hc, hs']
    refine ⟨?_, ?_, ?_, ?_, ?_, ?_⟩
    · intro r hr
      exact hid r (List.mem_of_mem_filter hr)
    · exact List.Pairwise.filter _ hids
    · exact List.Pairwise.filter _ husers
    · exact List.Pairwise.filter _ hibans
    · intro r hr
      exact hblank r (List.mem_of_mem_filter hr)
    · intro r hr
      have := hts r (List.mem_of_mem_filter hr)
      exact ⟨this.1, le_trans this.2 ht⟩

theorem inv_reachable {s : Store} (h : Reachable s) : Inv s := by
  induction h with
  | init => exact inv_initStore
  | stepCreate c p hr hltime ih =>
    exact inv_runCreate c p ih (le_of_lt hltime)
  | stepPut c i p hr hltime ih =>
    exact inv_runUpdate ih (le_of_lt hltime)
  | stepPatch c i p hr hltime ih =>
    exact inv_runUpdate ih (le_of_lt hltime)
  | stepDelete c i hr hltime ih =>
    exact inv_runDelete ih (le_of_lt hltime)

theorem createOp_success {c : Caller} {s : Store} {p : Payload} {t : Nat}
    (hg : requestAllowed c = true)
    (hv : validatePayload s none false p = []) :
    createOp c s p t = Except.ok (toRepresentation (newRecord s p t),
      { records := s.records ++ [newRecord s p t],
        nextId := s.nextId + 1, time := t }) := by
  simp [createOp, hg, hv]

theorem createOp_validation {c : Caller} {s : Store} {p : Payload}
    {t : Nat} (hg : requestAllowed c = true)
    (hv : validatePayload s none false p ≠ []) :
    createOp c s p t =
      Except.error (Failure.validation (validatePayload s none false p)) := by
  cases hv' : validatePayload s none false p with
  | nil => exact absurd hv' hv
  | cons a l => simp [createOp, hg, hv']

theorem updateOp_success {m : String} {ip : Bool} {c : Caller} {s : Store}
    {i : Nat} {p : Payload} {t : Nat} {r : UserRecord}
    (hg : requestAllowed c = true) (hr : findVisible s i = some r)
    (hperm : canManipulateUser c m = true)
    (hv : validatePayload s (some i) ip p = []) :
    updateOp m ip c s i p t =
      Except.ok (toRepresentation (applyUpdate r p t),
        { records := replaceById s.records i (applyUpdate r p t),
          nextId := s.nextId, time := t }) := by
  simp [updateOp, hg, hr, hperm, hv]

theorem updateOp_validation {m : String} {ip : Bool} {c : Caller}
    {s : Store} {i : Nat} {p : Payload} {t : Nat} {r : UserRecord}
    (hg : requestAllowed c = true) (hr : findVisible s i = some r)
    (hperm : canManipulateUser c m = true)
    (hv : validatePayload s (some i) ip p ≠ []) :
    updateOp m ip c s i p t =
      Except.error
        (Failure.validation (validatePayload s (some i) ip p)) := by
  cases hv' : validatePayload s (some i) ip p with
  | nil => exact absurd hv' hv
  | cons a l => simp [updateOp, hg, hr, hperm, hv']

theorem hashPassword_ne (pw : String) : hashPassword pw ≠ pw := by
  intro h
  have hl := congrArg String.length h
  rw [hashPassword, String.length_append] at hl
  have h14 : ("pbkdf2_sha256$").length = 14 := rfl
  rw [h14] at hl
  omega

theorem findVisible_none {s : Store} {i : Nat}
    (hids : s.records.Pairwise fun a b => a.id ≠ b.id)
    {r : UserRecord} (hr : r ∈ s.records) (hri : r.id = i)
    (hvis : visibleUser r = false) : findVisible s i = none := by
  rw [findVisible, List.find?_eq_none]
  intro x hx
  by_cases hxr : x = r
  · subst hxr
    simp [hvis]
  · have : x.id ≠ r.id :=
      List.Pairwise.forall (fun _ _ h => Ne.symm h) hids hx hr hxr
    simp only [Bool.and_eq_true, beq_iff_eq, not_and]
    intro _ hxi
    exact this (hxi.trans hri.symm)

/-- C8: the external representation produced for read paths contains no
password or credential-hash key, renders `currency` as its
human-readable display label, and is identical for two records that
differ only in their stored credential hash. -/
theorem C8_representation_hides_credentials (r : UserRecord)
    (pw : String) :
    ((toRepresentation r).all fun kv =>
      kv.1 != "password" && kv.1 != "credential_hash") = true ∧
    toRepresentation { r with password := pw } = toRepresentation r ∧
    (toRepresentation r).lookup "currency" =
      some (Value.s (getCurrencyDisplay r.currency)) :=
  ⟨rfl, rfl, rfl⟩

/-- C1 counterexample: an authenticated caller without administrative
privilege is refused the list operation, and an unauthenticated caller
is refused creation, contradicting the claimed rule table on which list
needs only authentication and create is open. -/
theorem C1_claim_counterexample :
    readerCaller.authenticated = true ∧
    listOp readerCaller initStore = Except.error Failure.forbidden ∧
    createOp anonCaller initStore alicePayload 1 =
      Except.error Failure.forbidden :=
  ⟨rfl, rfl, rfl⟩

/-- C1 (amended): every operation of the user endpoints — list, get and
create included — requires the caller to be both authenticated and
staff (`IsAuthenticated` plus `IsAdminUser`); replace, patch and delete
additionally require the mapped model permission once the target is
found; denials are `Forbidden`, distinct from `NotFound`. -/
theorem C1_access_policy (c : Caller) (s : Store) (i : Nat) (p : Payload)
    (t : Nat) (r : UserRecord) :
    (requestAllowed c = false →
      listOp c s = Except.error Failure.forbidden ∧
      getOp c s i = Except.error Failure.forbidden ∧
      createOp c s p t = Except.error Failure.forbidden ∧
      putOp c s i p t = Except.error Failure.forbidden ∧
      patchOp c s i p t = Except.error Failure.forbidden ∧
      deleteOp c s i t = Except.error Failure.forbidden) ∧
    (requestAllowed c = true →
      listOp c s =
        Except.ok ((s.records.filter visibleUser).map toRepresentation)) ∧
    (requestAllowed c = true → findVisible s i = some r →
      getOp c s i = Except.ok (toRepresentation r)) ∧
    (requestAllowed c = true → findVisible s i = some r →
      c.hasPerm "users.change_user" = false →
      putOp c s i p t = Except.error Failure.forbidden ∧
      patchOp c s i p t = Except.error Failure.forbidden) ∧
    (requestAllowed c = true → findVisible s i = some r →
      c.hasPerm "users.delete_user" = false →
      deleteOp c s i t = Except.error Failure.forbidden) ∧
    requestAllowed c = (c.authenticated && c.is_staff) ∧
    Failure.forbidden ≠ Failure.notFound := by
  refine ⟨?_, ?_, ?_, ?_, ?_, rfl, by simp⟩
  · intro hg
    refine ⟨?_, ?_, ?_, ?_, ?_, ?_⟩ <;>
      simp [listOp, getOp, createOp, putOp, patchOp, deleteOp, updateOp, hg]
  · intro hg
    simp [listOp, hg]
  · intro hg hr
    have hget : canManipulateUser c "GET" = true := rfl
    simp [getOp, hg, hr, hget]
  · intro hg hr hperm
    have hput : canManipulateUser c "PUT" = c.hasPerm "users.change_user" :=
      rfl
    have hpatch :
        canManipulateUser c "PATCH" = c.hasPerm "users.change_user" := rfl
    constructor <;>
      simp [putOp, patchOp, updateOp, hg, hr, hput, hpatch, hperm]
  · intro hg hr hperm
    have hdel : canManipulateUser c "DELETE" = c.hasPerm "users.delete_user" :=
      rfl
    simp [deleteOp, hg, hr, hdel, hperm]

/-- C1 witness: concrete denials of list for an authenticated non-staff
caller, of create for an unauthenticated caller, and of replace for a
staff caller lacking the change permission. -/
theorem C1_access_policy_witness :
    listOp readerCaller initStore = Except.error Failure.forbidden ∧
    createOp anonCaller initStore alicePayload 1 =
      Except.error Failure.forbidden ∧
    putOp noPermCaller aliceStore 1 alicePayload 5 =
      Except.error Failure.forbidden :=
  ⟨((C1_access_policy readerCaller initStore 1 alicePayload 1
      aliceRecord).1 rfl).1,
   ((C1_access_policy anonCaller initStore 1 alicePayload 1
      aliceRecord).1 rfl).2.2.1,
   ((C1_access_policy noPermCaller aliceStore 1 alicePayload 5
      aliceRecord).2.2.2.1 rfl rfl rfl).1⟩

/-- C10: staff records and the `AnonymousUser` record are invisible at
the public API: list serves exactly the queryset, which excludes them,
and a get, replace, patch or delete aimed at their id answers
`NotFound` although the record is stored. -/
theorem C10_hidden_records (c : Caller) (s : Store) (r : UserRecord)
    (p : Payload) (t : Nat)
    (hg : requestAllowed c = true)
    (hids : s.records.Pairwise fun a b => a.id ≠ b.id)
    (hr : r ∈ s.records)
    (hstaff : r.is_staff = true ∨ r.username = "AnonymousUser") :
    visibleUser r = false ∧
    r ∉ s.records.filter visibleUser ∧
    listOp c s =
      Except.ok ((s.records.filter visibleUser).map toRepresentation) ∧
    getOp c s r.id = Except.error Failure.notFound ∧
    putOp c s r.id p t = Except.error Failure.notFound ∧
    patchOp c s r.id p t = Except.error Failure.notFound ∧
    deleteOp c s r.id t = Except.error Failure.notFound := by
  have hvis : visibleUser r = false := by
    rcases hstaff with h | h <;> simp [visibleUser, h]
  have hfn : findVisible s r.id = none := findVisible_none hids hr rfl hvis
  refine ⟨hvis, ?_, ?_, ?_, ?_, ?_, ?_⟩
  · intro hmem
    rw [List.mem_filter, hvis] at hmem
    exact absurd hmem.2 (by simp)
  · simp [listOp, hg]
  · simp [getOp, hg, hfn]
  · simp [putOp, updateOp, hg, hfn]
  · simp [patchOp, updateOp, hg, hfn]
  · simp [deleteOp, hg, hfn]

/-- C10 witness: in a store holding a regular record, a staff record
and the `AnonymousUser` record, the staff record is outside the
queryset and all four detail routes aimed at it answer `NotFound`. -/
theorem C10_hidden_records_witness :
    visibleUser staffRecord = false ∧
    staffRecord ∉ mixedStore.records.filter visibleUser ∧
    getOp adminCaller mixedStore staffRecord.id =
      Except.error Failure.notFound ∧
    putOp adminCaller mixedStore staffRecord.id bobPayload 9 =
      Except.error Failure.notFound ∧
    deleteOp adminCaller mixedStore staffRecord.id 9 =
      Except.error Failure.notFound :=
  let h := C10_hidden_records adminCaller mixedStore staffRecord
    bobPayload 9 rfl (by decide) (by decide) (Or.inl rfl)
  ⟨h.1, h.2.1, h.2.2.2.1, h.2.2.2.2.1, h.2.2.2.2.2.2⟩

/-- C2: the IBAN requirement is waived for elevated records at the
model validation layer (`User.clean` inside `full_clean`, the creation
path of staff and superuser records): with the IBAN absent and every
other field valid, validation succeeds; a non-elevated record with a
blank IBAN fails validation; and at the API serializer a creation
payload with an absent or empty `iban` is always rejected. -/
theorem C2_iban_waiver (existing : List UserRecord) (u : UserRecord)
    (s : Store) (p : Payload) :
    ((u.is_staff || u.is_superuser) = true → u.iban = none →
      u.username.isEmpty = false → u.username.length ≤ 150 →
      usernameCharsOk u.username = true →
      u.password.isEmpty = false → u.password.length ≤ 128 →
      u.first_name.isEmpty = false → u.first_name.length ≤ 30 →
      u.last_name.isEmpty = false → u.last_name.length ≤ 150 →
      u.email.length ≤ 254 → u.currency < 6 →
      (existing.any fun x => x.id != u.id && x.username == u.username) =
        false →
      fullCleanErrors existing u = []) ∧
    ((u.is_staff || u.is_superuser) = false → ibanBlank u.iban = true →
      ("iban", "required") ∈ fullCleanErrors existing u) ∧
    (p.iban = none ∨ p.iban = some "" →
      validatePayload s none false p ≠ []) := by
  refine ⟨?_, ?_, ?_⟩
  · intro helev hiban hue hul huc hpe hpl hfe hfl hle hll hel hcur hun
    have hcur' : (CURRENCIES.find? fun q => q.1 == u.currency).isSome =
        true := by
      interval_cases hc : u.currency <;> rfl
    have h1 : ¬(150 < u.username.length) := by omega
    have h2 : ¬(128 < u.password.length) := by omega
    have h3 : ¬(30 < u.first_name.length) := by omega
    have h4 : ¬(150 < u.last_name.length) := by omega
    have h5 : ¬(254 < u.email.length) := by omega
    simp [fullCleanErrors, userClean, ibanBlank, hiban, helev, hcur',
      hue, hul, huc, hpe, hpl, hfe, hfl, hle, hll, h1, h2, h3, h4, h5,
      hun]
  · intro helev hblank
    have hclean : (match userClean u with
        | Except.error _ => [(("iban" : String), ("required" : String))]
        | Except.ok _ => []) = [("iban", "required")] := by
      simp [userClean, hblank, helev]
    simp only [fullCleanErrors, hclean, List.mem_append]
    left
    left
    right
    simp
  · intro hiban hv
    have hib := (validatePayload_nil hv).2.2.2.2.2.1
    rcases hiban with h | h <;> rw [h] at hib <;>
      simp [ibanErrors, show ("".isEmpty) = true from rfl] at hib

/-- C2 witness: a staff record without IBAN passes model validation; a
plain record with the IBAN removed fails it with the required-IBAN
error; the API rejects the example payload when `iban` is stripped. -/
theorem C2_iban_waiver_witness :
    fullCleanErrors [] { staffRecord with iban := none } = [] ∧
    ("iban", "required") ∈
      fullCleanErrors [] { aliceRecord with iban := none } ∧
    validatePayload initStore none false
      { alicePayload with iban := none } ≠ [] :=
  ⟨(C2_iban_waiver [] { staffRecord with iban := none } initStore
      alicePayload).1 rfl rfl rfl (by decide) (by decide) rfl (by decide)
      rfl (by decide) rfl (by decide) (by decide) (by decide) rfl,
   (C2_iban_waiver [] { aliceRecord with iban := none } initStore
      alicePayload).2.1 rfl rfl,
   (C2_iban_waiver [] staffRecord initStore
      { alicePayload with iban := none }).2.2 (Or.inl rfl)⟩

/-- C3 counterexample: a full update of the example record that
supplies every required field except `password` fails with a
required-password validation error, contradicting the claim that the
password may be omitted from a full update. -/
theorem C3_claim_counterexample :
    putOp adminCaller aliceStore 1 { alicePayload with password := none }
      5 = Except.error (Failure.validation [("password", "required")]) :=
  rfl

/-- C3 (amended): on partial update the password may be omitted, in
which case the update succeeds (other fields permitting) and the stored
hash is unchanged; a supplied non-empty password is re-hashed and
replaces the stored hash on either update kind; an empty-string
password is a blank-password validation failure on either; on full
update the password is required, so omitting it is a validation
failure. -/
theorem C3_password_update (c : Caller) (s : Store) (i t : Nat)
    (p : Payload) (r : UserRecord) (hg : requestAllowed c = true)
    (hperm : c.hasPerm "users.change_user" = true)
    (hr : findVisible s i = some r) :
    (p.password = none → validatePayload s (some i) true p = [] →
      patchOp c s i p t =
        Except.ok (toRepresentation (applyUpdate r p t),
          { records := replaceById s.records i (applyUpdate r p t),
            nextId := s.nextId, time := t }) ∧
      (applyUpdate r p t).password = r.password) ∧
    (∀ pw, p.password = some pw → pw.isEmpty = false →
      (applyUpdate r p t).password = hashPassword pw) ∧
    (p.password = some "" →
      putOp c s i p t = Except.error
        (Failure.validation (validatePayload s (some i) false p)) ∧
      ("password", "blank") ∈ validatePayload s (some i) false p ∧
      patchOp c s i p t = Except.error
        (Failure.validation (validatePayload s (some i) true p)) ∧
      ("password", "blank") ∈ validatePayload s (some i) true p) ∧
    (p.password = none →
      putOp c s i p t = Except.error
        (Failure.validation (validatePayload s (some i) false p)) ∧
      ("password", "required") ∈ validatePayload s (some i) false p) := by
  have hpatchperm : canManipulateUser c "PATCH" = true := by
    have : canManipulateUser c "PATCH" = c.hasPerm "users.change_user" :=
      rfl
    rw [this, hperm]
  have hputperm : canManipulateUser c "PUT" = true := by
    have : canManipulateUser c "PUT" = c.hasPerm "users.change_user" :=
      rfl
    rw [this, hperm]
  refine ⟨?_, ?_, ?_, ?_⟩
  · intro hnone hv
    refine ⟨?_, ?_⟩
    · rw [patchOp]
      exact updateOp_success hg hr hpatchperm hv
    · simp [applyUpdate, hnone]
  · intro pw hsome hne
    simp [applyUpdate, hsome, hne]
  · intro hblank
    have hmem : ∀ ip, ("password", "blank") ∈
        validatePayload s (some i) ip p := by
      intro ip
      rw [validatePayload, hblank]
      simp [passwordErrors, show ("".isEmpty) = true from rfl]
    refine ⟨?_, hmem false, ?_, hmem true⟩
    · rw [putOp]
      exact updateOp_validation hg hr hputperm
        (List.ne_nil_of_mem (hmem false))
    · rw [patchOp]
      exact updateOp_validation hg hr hpatchperm
        (List.ne_nil_of_mem (hmem true))
  · intro hnone
    have hmem : ("password", "required") ∈
        validatePayload s (some i) false p := by
      rw [validatePayload, hnone]
      simp [passwordErrors]
    refine ⟨?_, hmem⟩
    rw [putOp]
    exact updateOp_validation hg hr hputperm (List.ne_nil_of_mem hmem)

/-- C3 witness: a patch without password succeeds and keeps the stored
hash; a supplied fresh password is re-hashed; an empty-string password
is reported blank. -/
theorem C3_password_update_witness :
    (patchOp adminCaller aliceStore 1 { first_name := some "Alicia" } 5 =
      Except.ok
        (toRepresentation
          (applyUpdate aliceRecord { first_name := some "Alicia" } 5),
         { records := replaceById aliceStore.records 1
             (applyUpdate aliceRecord { first_name := some "Alicia" } 5),
           nextId := aliceStore.nextId, time := 5 }) ∧
      (applyUpdate aliceRecord { first_name := some "Alicia" } 5).password
        = aliceRecord.password) ∧
    (applyUpdate aliceRecord
      { alicePayload with password := some "newpw99" } 5).password =
      hashPassword "newpw99" ∧
    ("password", "blank") ∈ validatePayload aliceStore (some 1) false
      { alicePayload with password := some "" } :=
  ⟨(C3_password_update adminCaller aliceStore 1 5
      { first_name := some "Alicia" } aliceRecord rfl rfl rfl).1 rfl rfl,
   (C3_password_update adminCaller aliceStore 1 5
      { alicePayload with password := some "newpw99" } aliceRecord rfl
      rfl rfl).2.1 "newpw99" rfl rfl,
   ((C3_password_update adminCaller aliceStore 1 5
      { alicePayload with password := some "" } aliceRecord rfl rfl
      rfl).2.2.1 rfl).2.1⟩

/-- C4: a create that repeats a stored username, or a stored non-empty
IBAN, fails with a uniqueness validation error and leaves the store
unchanged; username uniqueness and non-empty-IBAN uniqueness hold in
every reachable store. -/
theorem C4_uniqueness (c : Caller) (s : Store) (p : Payload) (t : Nat)
    (r : UserRecord) (w : String) :
    (requestAllowed c = true → r ∈ s.records → r.username = w →
      p.username = some w → w.isEmpty = false → w.length ≤ 150 →
      usernameCharsOk w = true →
      createOp c s p t = Except.error
        (Failure.validation (validatePayload s none false p)) ∧
      ("username", "unique") ∈ validatePayload s none false p ∧
      runCreate c s p t = s) ∧
    (requestAllowed c = true → r ∈ s.records → r.iban = some w →
      p.iban = some w → w.isEmpty = false → ibanWellFormed w = true →
      createOp c s p t = Except.error
        (Failure.validation (validatePayload s none false p)) ∧
      ("iban", "unique") ∈ validatePayload s none false p ∧
      runCreate c s p t = s) ∧
    (Reachable s →
      (s.records.Pairwise fun a b => a.username ≠ b.username) ∧
      (s.records.Pairwise fun a b => a.iban ≠ b.iban) ∧
      ∀ x ∈ s.records, ibanBlank x.iban = false) := by
  refine ⟨?_, ?_, ?_⟩
  · intro hg hr hru hpu hne hlen hchars
    have htaken : usernameTaken s none w = true := by
      rw [usernameTaken, List.any_eq_true]
      exact ⟨r, hr, by simp [hru]⟩
    have hlen' : ¬(150 < w.length) := by omega
    have herr : usernameErrors s none false (some w) =
        [("username", "unique")] := by
      simp [usernameErrors, hne, hlen', hchars, htaken]
    have hmem : ("username", "unique") ∈
        validatePayload s none false p := by
      rw [validatePayload, hpu, herr]
      simp
    refine ⟨createOp_validation hg (List.ne_nil_of_mem hmem), hmem, ?_⟩
    rw [runCreate, createOp_validation hg (List.ne_nil_of_mem hmem)]
  · intro hg hr hri hpi hne hwf
    have htaken : ibanTaken s none w = true := by
      rw [ibanTaken, List.any_eq_true]
      exact ⟨r, hr, by simp [hri]⟩
    have herr : ibanErrors s none false (some w) = [("iban", "unique")] := by
      simp [ibanErrors, hne, hwf, htaken]
    have hmem : ("iban", "unique") ∈ validatePayload s none false p := by
      rw [validatePayload, hpi, herr]
      simp
    refine ⟨createOp_validation hg (List.ne_nil_of_mem hmem), hmem, ?_⟩
    rw [runCreate, createOp_validation hg (List.ne_nil_of_mem hmem)]
  · intro hreach
    have hinv := inv_reachable hreach
    exact ⟨hinv.2.2.1, hinv.2.2.2.1, hinv.2.2.2.2.1⟩

/-- C4 witness: against the store holding the example record, a create
repeating its username and a create repeating its IBAN both leave the
store unchanged, and that store satisfies the uniqueness invariants. -/
theorem C4_uniqueness_witness :
    runCreate adminCaller aliceStore
      { bobPayload with username := some "alice" } 5 = aliceStore ∧
    runCreate adminCaller aliceStore
      { bobPayload with iban := some "DE89370400440532013000" } 5 =
      aliceStore ∧
    (aliceStore.records.Pairwise fun a b => a.username ≠ b.username) :=
  ⟨((C4_uniqueness adminCaller aliceStore
      { bobPayload with username := some "alice" } 5 aliceRecord
      "alice").1 rfl (by decide) rfl rfl rfl (by decide)
      (by decide)).2.2,
   ((C4_uniqueness adminCaller aliceStore
      { bobPayload with iban := some "DE89370400440532013000" } 5
      aliceRecord "DE89370400440532013000").2.1 rfl (by decide) rfl rfl
      rfl (by decide)).2.2,
   ((C4_uniqueness adminCaller aliceStore alicePayload 5 aliceRecord
      "alice").2.2 (by
        exact Reachable.stepCreate adminCaller alicePayload
          Reachable.init (by decide))).1⟩

/-- C5: a gated, valid creation stores a record with equal creation and
update timestamps, a hashed credential different from the plaintext,
and the documented defaults: balance 0, currency `EURO`, empty
e-mail. -/
theorem C5_creation_defaults (c : Caller) (s : Store) (p : Payload)
    (t : Nat) (hg : requestAllowed c = true)
    (hv : validatePayload s none false p = []) :
    createOp c s p t = Except.ok (toRepresentation (newRecord s p t),
      { records := s.records ++ [newRecord s p t],
        nextId := s.nextId + 1, time := t }) ∧
    (newRecord s p t).create_ts = (newRecord s p t).update_ts ∧
    (∀ pw, p.password = some pw →
      (newRecord s p t).password = hashPassword pw ∧
      (newRecord s p t).password ≠ pw) ∧
    (p.balance = none → (newRecord s p t).balance = 0) ∧
    (p.currency = none → (newRecord s p t).currency = EURO) ∧
    (p.email = none → (newRecord s p t).email = "") := by
  refine ⟨createOp_success hg hv, rfl, ?_, ?_, ?_, ?_⟩
  · intro pw hpw
    have hp : (newRecord s p t).password = hashPassword pw := by
      simp [newRecord, hpw]
    exact ⟨hp, hp ▸ hashPassword_ne pw⟩
  · intro h
    simp [newRecord, h]
  · intro h
    simp [newRecord, h]
  · intro h
    simp [newRecord, h]

/-- C5 witness: the worked example creation stores the expected
defaulted record. -/
theorem C5_creation_defaults_witness :
    aliceRecord.create_ts = aliceRecord.update_ts ∧
    aliceRecord.password ≠ "p@ss1234" ∧
    aliceRecord.balance = 0 ∧
    aliceRecord.currency = EURO ∧
    aliceRecord.email = "" :=
  let h := C5_creation_defaults adminCaller initStore alicePayload 1 rfl
    rfl
  ⟨h.2.1, (h.2.2.1 "p@ss1234" rfl).2, h.2.2.2.1 rfl, h.2.2.2.2.1 rfl,
   h.2.2.2.2.2 rfl⟩

/-- C6: a gated partial update with an empty payload succeeds, stores
the record with `update_ts` advanced to the strictly later request
clock, and leaves every other field — username, credential hash, names,
e-mail, IBAN, balance, currency, `create_ts` — unchanged. -/
theorem C6_empty_patch (c : Caller) (s : Store) (i t : Nat)
    (r : UserRecord) (hg : requestAllowed c = true)
    (hperm : c.hasPerm "users.change_user" = true)
    (hr : findVisible s i = some r) (ht : r.update_ts < t) :
    patchOp c s i {} t = Except.ok
      (toRepresentation { r with update_ts := t },
       { records := replaceById s.records i { r with update_ts := t },
         nextId := s.nextId, time := t }) ∧
    r.update_ts < ({ r with update_ts := t } : UserRecord).update_ts ∧
    ({ r with update_ts := t } : UserRecord).username = r.username ∧
    ({ r with update_ts := t } : UserRecord).password = r.password ∧
    ({ r with update_ts := t } : UserRecord).first_name = r.first_name ∧
    ({ r with update_ts := t } : UserRecord).last_name = r.last_name ∧
    ({ r with update_ts := t } : UserRecord).email = r.email ∧
    ({ r with update_ts := t } : UserRecord).iban = r.iban ∧
    ({ r with update_ts := t } : UserRecord).balance = r.balance ∧
    ({ r with update_ts := t } : UserRecord).currency = r.currency ∧
    ({ r with update_ts := t } : UserRecord).create_ts = r.create_ts := by
  have hpatchperm : canManipulateUser c "PATCH" = true := by
    have : canManipulateUser c "PATCH" = c.hasPerm "users.change_user" :=
      rfl
    rw [this, hperm]
  have hv : validatePayload s (some i) true ({} : Payload) = [] := rfl
  have happ : applyUpdate r {} t = { r with update_ts := t } := rfl
  have := updateOp_success (m := "PATCH") (t := t) hg hr hpatchperm hv
  rw [happ] at this
  exact ⟨this, ht, rfl, rfl, rfl, rfl, rfl, rfl, rfl, rfl, rfl⟩

/-- C6 witness: the empty patch on the example store at clock 5. -/
theorem C6_empty_patch_witness :
    patchOp adminCaller aliceStore 1 {} 5 = Except.ok
      (toRepresentation { aliceRecord with update_ts := 5 },
       { records := replaceById aliceStore.records 1
           { aliceRecord with update_ts := 5 },
         nextId := aliceStore.nextId, time := 5 }) ∧
    aliceRecord.update_ts < 5 :=
  let h := C6_empty_patch adminCaller aliceStore 1 5 aliceRecord rfl rfl
    rfl (by decide)
  ⟨h.1, h.2.1⟩

/-- C7: a gated full update that omits any of the required fields
(username, password, first_name, last_name, iban) fails with a
validation error and the store — the target record and its `update_ts`
included — is unchanged. -/
theorem C7_full_update_required (c : Caller) (s : Store) (i t : Nat)
    (p : Payload) (r : UserRecord) (hg : requestAllowed c = true)
    (hperm : c.hasPerm "users.change_user" = true)
    (hr : findVisible s i = some r)
    (hmiss : p.username = none ∨ p.password = none ∨
      p.first_name = none ∨ p.last_name = none ∨ p.iban = none) :
    putOp c s i p t = Except.error
      (Failure.validation (validatePayload s (some i) false p)) ∧
    validatePayload s (some i) false p ≠ [] ∧
    runPut c s i p t = s := by
  have hputperm : canManipulateUser c "PUT" = true := by
    have : canManipulateUser c "PUT" = c.hasPerm "users.change_user" :=
      rfl
    rw [this, hperm]
  have hvne : validatePayload s (some i) false p ≠ [] := by
    intro hv
    obtain ⟨hu, hpw, hf, hl, -, hib, -⟩ := validatePayload_nil hv
    rcases hmiss with h | h | h | h | h
    · rw [h] at hu
      simp [usernameErrors] at hu
    · rw [h] at hpw
      simp [passwordErrors] at hpw
    · rw [h] at hf
      simp [firstNameErrors] at hf
    · rw [h] at hl
      simp [lastNameErrors] at hl
    · rw [h] at hib
      simp [ibanErrors] at hib
  have heq : putOp c s i p t = Except.error
      (Failure.validation (validatePayload s (some i) false p)) := by
    rw [putOp]
    exact updateOp_validation hg hr hputperm hvne
  refine ⟨heq, hvne, ?_⟩
  rw [runPut, heq]

/-- C7 witness: a full update of the example record without a password
is rejected and the store is untouched. -/
theorem C7_full_update_required_witness :
    putOp adminCaller aliceStore 1
      { alicePayload with password := none } 5 = Except.error
      (Failure.validation (validatePayload aliceStore (some 1) false
        { alicePayload with password := none })) ∧
    runPut adminCaller aliceStore 1
      { alicePayload with password := none } 5 = aliceStore :=
  let h := C7_full_update_required adminCaller aliceStore 1 5
    { alicePayload with password := none } aliceRecord rfl rfl rfl
    (Or.inr (Or.inl rfl))
  ⟨h.1, h.2.2⟩

/-- C9: in every reachable store every record satisfies
`create_ts ≤ update_ts`; the record a create stores has the two equal;
and every successful replace or patch leaves the touched record with
`update_ts` strictly later than `create_ts`. -/
theorem C9_timestamps (s : Store) (h : Reachable s) :
    (∀ r ∈ s.records, r.create_ts ≤ r.update_ts) ∧
    (∀ c p t v s', createOp c s p t = Except.ok (v, s') →
      ∀ r' ∈ s'.records, r' ∉ s.records →
        r'.create_ts = r'.update_ts) ∧
    (∀ c i p t v s', s.time < t →
      putOp c s i p t = Except.ok (v, s') →
      ∀ r' ∈ s'.records, r' ∉ s.records →
        r'.create_ts < r'.update_ts) ∧
    (∀ c i p t v s', s.time < t →
      patchOp c s i p t = Except.ok (v, s') →
      ∀ r' ∈ s'.records, r' ∉ s.records →
        r'.create_ts < r'.update_ts) := by
  have hinv := inv_reachable h
  have hts := hinv.2.2.2.2.2
  refine ⟨fun r hr => (hts r hr).1, ?_, ?_, ?_⟩
  · intro c p t v s' hc r' hr' hnot
    obtain ⟨-, -, hx⟩ := createOp_ok hc
    have hrec : s'.records = s.records ++ [newRecord s p t] :=
      congrArg (fun q => q.2.records) hx
    rw [hrec] at hr'
    rcases List.mem_append.1 hr' with hmem | hmem
    · exact absurd hmem hnot
    · rw [List.mem_singleton] at hmem
      subst hmem
      rfl
  · intro c i p t v s' hlt hc r' hr' hnot
    obtain ⟨r0, -, hr0, -, hx⟩ := updateOp_ok hc
    obtain ⟨hr0mem, -, -⟩ := findVisible_spec hr0
    have hrec : s'.records =
        replaceById s.records i (applyUpdate r0 p t) :=
      congrArg (fun q => q.2.records) hx
    rw [hrec] at hr'
    rcases mem_replaceById hr' with hmem | hmem
    · subst hmem
      have h0 := hts r0 hr0mem
      show (applyUpdate r0 p t).create_ts < (applyUpdate r0 p t).update_ts
      have hcts : (applyUpdate r0 p t).create_ts = r0.create_ts := rfl
      have huts : (applyUpdate r0 p t).update_ts = t := rfl
      rw [hcts, huts]
      omega
    · exact absurd hmem hnot
  · intro c i p t v s' hlt hc r' hr' hnot
    obtain ⟨r0, -, hr0, -, hx⟩ := updateOp_ok hc
    obtain ⟨hr0mem, -, -⟩ := findVisible_spec hr0
    have hrec : s'.records =
        replaceById s.records i (applyUpdate r0 p t) :=
      congrArg (fun q => q.2.records) hx
    rw [hrec] at hr'
    rcases mem_replaceById hr' with hmem | hmem
    · subst hmem
      have h0 := hts r0 hr0mem
      show (applyUpdate r0 p t).create_ts < (applyUpdate r0 p t).update_ts
      have hcts : (applyUpdate r0 p t).create_ts = r0.create_ts := rfl
      have huts : (applyUpdate r0 p t).update_ts = t := rfl
      rw [hcts, huts]
      omega
    · exact absurd hmem hnot

/-- C9 witness: the invariant evaluated on the reachable example
store. -/
theorem C9_timestamps_witness :
    aliceRecord.create_ts ≤ aliceRecord.update_ts :=
  (C9_timestamps aliceStore (by
    exact Reachable.stepCreate adminCaller alicePayload Reachable.init
      (by decide))).1 aliceRecord (by decide)

end BankUsers
